import Mathlib

/-!
Verification development for the `ThreadPool` of this repository
(`threadpool.h`, `threadInfo.h`, `threadInfo.cpp`, and the documented copy of
`threadpool.h` embedded alongside `threadInfo.h`).

The pool is a Hoare monitor: every state-mutating section of
`ThreadPool::start`, `ThreadPool::taskRunner` and `ThreadPool::shutdown`
executes under mutual exclusion.  We therefore model the pool as a
small-step transition system whose atomic steps are exactly those monitor
sections, interleaved arbitrarily with worker-thread scheduling.  Hoare
signal semantics (a `signal` hands the monitor to the first waiter, which
finishes its critical section before the signaller resumes) lets us fuse a
signal with the woken waiter's remaining code into the same atomic step.

Tasks are identified by natural numbers.  The observable behaviour of a
trace is recorded in an event list:
  * `Ev.run t`     — `t→run()` was invoked (the task was popped by `taskRunner`);
  * `Ev.cancel t`  — `t→cancelRun()` was invoked (queue-overflow rejection);
  * `Ev.drop t`    — `t` was discarded by the `shutdown` drain loop, with
                      neither `run` nor `cancelRun` invoked;
  * `Ev.refuse t`  — `start` returned `false` for `t` because
                      `isShuttingDown` was already set (no hook invoked);
  * `Ev.ret t b`   — `start` returned `b` to the submitter of `t`.

`submitted` and `enq` are ghost histories (every task ever passed to
`start`, and every task ever pushed onto `waitingTasks`, in order); they
record information the C++ object does not store but change no behaviour.
-/

namespace TP

/-- A worker thread of the pool: mirrors `ThreadInfo` (`threadInfo.h`).
`wid` is the numeric part of the `"Thread-N"` identifier, `isRunning` the
atomic running flag.  `lastPollEmpty` is a ghost record of whether the
worker's most recent `taskRunner()` call returned without popping a task
(i.e. the last `didWork` value was `false`); the idle-timeout exit of
`ThreadInfo::workerTask` is only possible after such a poll. -/
structure Worker where
  wid : Nat
  isRunning : Bool
  lastPollEmpty : Bool
deriving DecidableEq

/-- Observable events of a pool trace. -/
inductive Ev where
  | run (tid : Nat)
  | cancel (tid : Nat)
  | drop (tid : Nat)
  | refuse (tid : Nat)
  | ret (tid : Nat) (ok : Bool)
deriving DecidableEq

/-- State of a `ThreadPool` object (`threadpool.h`), plus ghost history.
`blocked` holds the submissions currently suspended in `wait(waitForThread)`
(FIFO, as the Hoare condition queue is); its length is the
`nbTasksWaitingForThreads` counter, which is incremented immediately before
the `wait` and decremented immediately after it. -/
structure Pool where
  maxThreadCount : Nat
  maxNbWaiting : Nat
  idleTimeoutMs : Nat
  idleThreads : Nat
  queue : List Nat
  workers : List Worker
  blocked : List Nat
  shuttingDown : Bool
  nextWid : Nat
  submitted : List Nat
  enq : List Nat
  events : List Ev
deriving DecidableEq

/-- Mirrors `ThreadPool::currentNbThreads`: `count_if` over the `threadPool`
vector of the entries whose `isThreadRunning()` is true. -/
def countRunning (ws : List Worker) : Nat :=
  (ws.filter (fun w => w.isRunning)).length

/-- Mirrors `ThreadPool::currentNbThreads` on a pool state. -/
def currentNbThreads (s : Pool) : Nat :=
  countRunning s.workers

/-- The state the `ThreadPool` constructor body leaves behind for valid
arguments: counters zero, queue/registry empty, `isShuttingDown = false`. -/
def initPool (maxT maxW tmo : Nat) : Pool :=
  { maxThreadCount := maxT
    maxNbWaiting := maxW
    idleTimeoutMs := tmo
    idleThreads := 0
    queue := []
    workers := []
    blocked := []
    shuttingDown := false
    nextWid := 0
    submitted := []
    enq := []
    events := [] }

/-- Mirrors the `ThreadPool` constructor (`threadpool.h`): the three
validation checks, in source order, each raising `std::invalid_argument`
with the given message.  A raised exception means no pool object exists,
which we model with `Except.error`. -/
def mkThreadPool (maxThreadCount maxNbWaiting idleTimeoutMs : Int) :
    Except String Pool :=
  if maxThreadCount ≤ 0 then
    Except.error "maxThreadCount must be greater than 0"
  else if maxNbWaiting < 0 then
    Except.error "maxNbWaiting cannot be negative"
  else if idleTimeoutMs < 0 then
    Except.error "idleTimeout must be non-negative"
  else
    Except.ok (initPool maxThreadCount.toNat maxNbWaiting.toNat idleTimeoutMs.toNat)

/-- The monitor section of `ThreadPool::start` for a submission `t`.

Source (`threadpool.h`): refuse if `isShuttingDown || maxThreadCount < 0`
(the second disjunct is vacuous: `maxThreadCount` is a `size_t`); otherwise
push `t` on `waitingTasks`; then the four-way policy:
`idleThreads > 0` → `signal(condTaskAvailable)` (no thread ever waits on
`condTaskAvailable`, so under Hoare semantics this is a no-op) and return
true; else if `currentNbThreads() < maxThreadCount` → `createThread()` and
return true; else if `waitingTasks.size() - 1 < maxNbWaiting` → the caller
blocks in `wait(waitForThread)` (no return yet — see `pollStep` /
`shutdownStep` for resumption); else cancel and pop `waitingTasks.front()`
and return false.  `createThread` appends a `ThreadInfo` whose `start()`
sets `isRunning = true` before the new thread's first poll. -/
def startStep (s : Pool) (t : Nat) : Pool :=
  if s.shuttingDown = true ∨ s.maxThreadCount < 0 then
    { s with submitted := s.submitted ++ [t]
             events := s.events ++ [Ev.refuse t] }
  else if 0 < s.idleThreads then
    { s with submitted := s.submitted ++ [t]
             enq := s.enq ++ [t]
             queue := s.queue ++ [t]
             events := s.events ++ [Ev.ret t true] }
  else if countRunning s.workers < s.maxThreadCount then
    { s with submitted := s.submitted ++ [t]
             enq := s.enq ++ [t]
             queue := s.queue ++ [t]
             workers := s.workers ++ [⟨s.nextWid, true, false⟩]
             nextWid := s.nextWid + 1
             events := s.events ++ [Ev.ret t true] }
  else if (s.queue ++ [t]).length - 1 < s.maxNbWaiting then
    { s with submitted := s.submitted ++ [t]
             enq := s.enq ++ [t]
             queue := s.queue ++ [t]
             blocked := s.blocked ++ [t] }
  else
    match s.queue ++ [t] with
    | [] => s
    | c :: rest =>
      { s with submitted := s.submitted ++ [t]
               enq := s.enq ++ [t]
               queue := rest
               events := s.events ++ [Ev.cancel c, Ev.ret t false] }

/-- The monitor section of `ThreadPool::taskRunner`, taken by worker `wid`.

Source (`threadpool.h`): if `isShuttingDown` return false; if the queue is
non-empty, pop the front task and run it outside the monitor (`Ev.run`);
otherwise `++idleThreads` and, if `nbTasksWaitingForThreads > 0`,
`signal(waitForThread)` — under Hoare semantics the first blocked submitter
resumes inside the same exclusion span, decrements the counter, leaves the
monitor and returns `true` (`Ev.ret _ true`), after which the worker's
section finishes.  Note the source never decrements `idleThreads`. -/
def pollStep (s : Pool) (wid : Nat) : Pool :=
  if s.shuttingDown = true then s
  else
    match s.queue with
    | t :: rest =>
      { s with queue := rest
               workers := s.workers.map (fun w =>
                 if w.wid = wid then { w with lastPollEmpty := false } else w)
               events := s.events ++ [Ev.run t] }
    | [] =>
      let ws := s.workers.map (fun w =>
        if w.wid = wid then { w with lastPollEmpty := true } else w)
      match s.blocked with
      | [] => { s with idleThreads := s.idleThreads + 1, workers := ws }
      | b :: bs =>
        { s with idleThreads := s.idleThreads + 1
                 workers := ws
                 blocked := bs
                 events := s.events ++ [Ev.ret b true] }

/-- The idle-timeout exit of `ThreadInfo::workerTask` (`threadInfo.cpp`) as
seen by the pool: the worker flips its running flag to `false` and its loop
ends.  Nothing removes the `ThreadInfo` from the `threadPool` vector. -/
def terminateStep (s : Pool) (wid : Nat) : Pool :=
  { s with workers := s.workers.map (fun w =>
      if w.wid = wid then { w with isRunning := false } else w) }

/-- `ThreadPool::shutdown` (`threadpool.h`), modelled as one atomic step:
set `isShuttingDown`; signal `condTaskAvailable` (no waiters — no-op) and
`waitForThread` once per entry of the `threadPool` vector, so the first
`min (#threadPool) (#blocked)` blocked submitters resume, decrement the
counter and return `true`; `threadPool.clear()` joins and destroys every
worker; finally the drain loop pops every remaining queued task without
invoking any of its hooks (`Ev.drop`). -/
def shutdownStep (s : Pool) : Pool :=
  let k := min s.workers.length s.blocked.length
  { s with shuttingDown := true
           workers := []
           blocked := s.blocked.drop k
           queue := []
           events := s.events ++ ((s.blocked.take k).map (fun b => Ev.ret b true))
                              ++ (s.queue.map Ev.drop) }

/-- Scheduler steps of the system: a fresh submission, a running worker's
`taskRunner` poll, a worker's idle-timeout exit (possible exactly after a
poll that found no work, since the scheduler may delay that worker past any
`idleTimeout`), and shutdown. -/
inductive Step : Pool → Pool → Prop where
  | submit {s : Pool} (t : Nat) (h : t ∉ s.submitted) : Step s (startStep s t)
  | poll {s : Pool} (wid : Nat)
      (h : s.workers.any (fun w => w.wid = wid && w.isRunning) = true) :
      Step s (pollStep s wid)
  | timeoutStop {s : Pool} (wid : Nat)
      (h : s.workers.any (fun w => w.wid = wid && w.isRunning && w.lastPollEmpty) = true) :
      Step s (terminateStep s wid)
  | shutdown {s : Pool} : Step s (shutdownStep s)

/-- Reachability: reflexive-transitive closure of `Step`. -/
inductive Reach : Pool → Pool → Prop where
  | refl (s : Pool) : Reach s s
  | step {s t u : Pool} : Reach s t → Step t u → Reach s u

/-- Number of occurrences of event `e` in an event list. -/
def ecount (e : Ev) (l : List Ev) : Nat :=
  l.countP (fun x => decide (x = e))

/-- Number of occurrences of `n` in a list of task identifiers. -/
def ncount (n : Nat) (l : List Nat) : Nat :=
  l.countP (fun x => decide (x = n))

/-- The fate mass of task `tid`: its terminal events (run, cancel,
shutdown-drop, shutdown-refusal) plus its occurrences still in the waiting
queue.  The exactly-once discipline of the pool is `fate s tid = 1` for
every submitted `tid`. -/
def fate (s : Pool) (tid : Nat) : Nat :=
  ecount (Ev.run tid) s.events + ecount (Ev.cancel tid) s.events
    + ecount (Ev.drop tid) s.events + ecount (Ev.refuse tid) s.events
    + ncount tid s.queue

/-- Which queue-removal a single event records, if any. -/
def remTid (e : Ev) : Option Nat :=
  match e with
  | Ev.run t => some t
  | Ev.cancel t => some t
  | Ev.drop t => some t
  | Ev.refuse _ => none
  | Ev.ret _ _ => none

/-- The sequence of tasks removed from the waiting queue, in removal order. -/
def remSeq (l : List Ev) : List Nat :=
  l.filterMap remTid

/-- Which dispatch a single event records, if any. -/
def runTid (e : Ev) : Option Nat :=
  match e with
  | Ev.run t => some t
  | _ => none

/-- The sequence of tasks handed to workers (popped by `taskRunner` and
run), in dispatch order. -/
def runSeq (l : List Ev) : List Nat :=
  l.filterMap runTid

/-- The master invariant: the configured thread bound is immutable, the
live worker count respects it, every queue removal happened at the front
(so removal order ++ current queue = enqueue order), and every submitted
task has fate mass exactly one. -/
def Inv (maxT : Nat) (s : Pool) : Prop :=
  s.maxThreadCount = maxT ∧
  countRunning s.workers ≤ maxT ∧
  remSeq s.events ++ s.queue = s.enq ∧
  ∀ tid, fate s tid = if tid ∈ s.submitted then 1 else 0

/-- Local view of a worker thread's loop variables in
`ThreadInfo::workerTask` (`threadInfo.cpp`): the running flag, the
`didWork` flag, and `lastWorkTime` in milliseconds of steady-clock time. -/
structure WInfo where
  isRunning : Bool
  didWork : Bool
  lastWorkTime : Nat
deriving DecidableEq

/-- One iteration of the `while (isRunning)` body of
`ThreadInfo::workerTask` (`threadInfo.cpp`), entered with loop state `w`.
`fetched` is the value `pool->taskRunner()` returned; `now1` is the
`steady_clock::now()` read for the timeout test and `now2` the later read
stored into `lastWorkTime` when work was done (times in milliseconds, as
`duration_cast<milliseconds>` truncates).  The exit test is
`elapsed >= idleTimeout && !didWork`; on exit the flag flips and the loop
breaks, otherwise `lastWorkTime` is refreshed iff work was done and
`didWork` is reset. -/
def workerIter (idleTimeout : Nat) (w : WInfo) (fetched : Bool) (now1 now2 : Nat) : WInfo :=
  if idleTimeout ≤ now1 - w.lastWorkTime ∧ fetched = false then
    { w with didWork := fetched, isRunning := false }
  else
    { w with didWork := false
             lastWorkTime := if fetched then now2 else w.lastWorkTime }

/-- A C++ exception raised by a task body: either an object derived from
`std::exception` (carrying its `what()` message) — the only kind the
documented `taskRunner`'s catch clause matches — or any other thrown value
(`throw 42;`, a class not derived from `std::exception`, ...). -/
inductive RunExc where
  | stdExc (what : String)
  | otherExc
deriving DecidableEq

/-- A task body for the exception-handling model: `run()` either returns
normally (`none`) or raises the given exception. -/
structure TaskB where
  outcome : Option RunExc
deriving DecidableEq

/-- The behaviour of `task->run()`: normal return, or a raised C++
exception on the error channel. -/
def runBody (t : TaskB) : Except RunExc Unit :=
  match t.outcome with
  | none => Except.ok ()
  | some e => Except.error e

/-- The dispatch section of `taskRunner` after popping a task, per the
documented copy of `threadpool.h` shipped with `threadInfo.h`:
`try { if (task) task->run(); return true; }` with
`catch (const std::exception& e)` logging
`"[ERROR] Task execution failed: " << e.what() << "\n"` and returning
false.  The catch clause is typed: it matches only exceptions derived from
`std::exception`; any other exception is not caught and keeps propagating.
The outer `Except` is the exception channel out of `taskRunner` itself; an
`Except.ok` result pairs the return value with the log. -/
def dispatchRun (t : TaskB) (log : List String) :
    Except RunExc (Bool × List String) :=
  match runBody t with
  | Except.ok _ => Except.ok (true, log)
  | Except.error (RunExc.stdExc w) =>
      Except.ok (false, log ++ ["[ERROR] Task execution failed: " ++ w ++ "\n"])
  | Except.error RunExc.otherExc => Except.error RunExc.otherExc

/-- The dispatch section of the bare `src/code/threadpool.h` copy of
`taskRunner`: `monitorOut(); if (task) { task->run(); return true; }` with
no try/catch at all — every exception raised by `run()` escapes
`taskRunner`. -/
def dispatchRunBare (t : TaskB) (log : List String) :
    Except RunExc (Bool × List String) :=
  match runBody t with
  | Except.ok _ => Except.ok (true, log)
  | Except.error e => Except.error e

/-- Whether a dispatch result is an exception escaping `taskRunner`
(propagating into `workerTask` and out of the worker thread) rather than a
normal return. -/
def escapes (r : Except RunExc (Bool × List String)) : Bool :=
  match r with
  | Except.ok _ => false
  | Except.error _ => true

/-- Concrete trace A — pool constructed as `ThreadPool(1, 0, 0ms)`. -/
def aS0 : Pool := initPool 1 0 0

/-- Trace A after `start(task 0)`: a worker is created, task 0 queued. -/
def aS1 : Pool := startStep aS0 0

/-- Trace A: the worker's first poll pops and runs task 0. -/
def aS2 : Pool := pollStep aS1 0

/-- Trace A: the worker's second poll finds the queue empty and increments
`idleThreads`. -/
def aS3 : Pool := pollStep aS2 0

/-- Trace A: with `idleTimeout = 0ms` the worker's loop now exits
(`elapsed >= 0 && !didWork`), flipping its running flag. -/
def aS4 : Pool := terminateStep aS3 0

/-- Trace A: `start(task 1)` — `idleThreads` is still 1 (never
decremented), so the submission takes the wake-an-idle-thread branch and
returns true, though no running worker exists. -/
def aS5 : Pool := startStep aS4 1

/-- Trace A: `start(task 2)` — same stale-idle branch again. -/
def aS6 : Pool := startStep aS5 2

/-- Concrete trace B — pool constructed as `ThreadPool(1, 0, _)`;
two submissions race ahead of the created worker's first poll. -/
def bS0 : Pool := initPool 1 0 0

/-- Trace B after `start(task 0)`: worker created, task 0 queued,
`start` returned true. -/
def bS1 : Pool := startStep bS0 0

/-- Trace B after `start(task 1)` before the worker's first poll: the
overflow branch fires, cancelling and popping the queue front — task 0 —
while task 1 stays queued; `start` returns false for task 1. -/
def bS2 : Pool := startStep bS1 1

/-- Trace B: the worker's first poll pops and runs task 1 — the very task
whose submission returned false. -/
def bS3 : Pool := pollStep bS2 0

/-- Concrete trace C — pool constructed as `ThreadPool(1, 5, _)`;
one task is queued when `shutdown` begins. -/
def cS0 : Pool := initPool 1 5 1000

/-- Trace C after `start(task 0)`: worker created, task 0 queued. -/
def cS1 : Pool := startStep cS0 0

/-- Trace C: `shutdown` before the worker's first poll — task 0 is drained
from the queue with neither `run` nor `cancelRun` invoked. -/
def cS2 : Pool := shutdownStep cS1

/-- Concrete trace E — pool constructed as `ThreadPool(1, 2, _)`; two
submissions are queued behind a busy worker, then a third overflows. -/
def eS0 : Pool := initPool 1 2 1000

/-- Trace E after `start(task 0)`: worker created, task 0 queued. -/
def eS1 : Pool := startStep eS0 0

/-- Trace E: the worker pops and runs task 0; it is now busy and no worker
is idle or creatable. -/
def eS2 : Pool := pollStep eS1 0

/-- Trace E: `start(task 1)` while no worker is available — task 1 is
queued and its submitter blocks awaiting capacity. -/
def eS3 : Pool := startStep eS2 1

/-- Trace E: `start(task 2)` while no worker is available — task 2 is
queued behind task 1 and its submitter blocks too. -/
def eS4 : Pool := startStep eS3 2

/-- Trace E: `start(task 3)` overflows (`waitingTasks.size() - 1 == 2` is
not below `maxNbWaiting == 2`): the queue head — task 1 — is cancelled and
popped; tasks 2 and 3 stay queued. -/
def eS5 : Pool := startStep eS4 3

/-- Trace E: the worker's next poll pops and runs task 2, which was
enqueued after task 1; task 1 is never handed to any worker. -/
def eS6 : Pool := pollStep eS5 0

/-! ## Counting helpers -/

theorem ecount_append (e : Ev) (l₁ l₂ : List Ev) :
    ecount e (l₁ ++ l₂) = ecount e l₁ + ecount e l₂ := by
  simp [ecount, List.countP_append]

theorem ncount_append (n : Nat) (l₁ l₂ : List Nat) :
    ncount n (l₁ ++ l₂) = ncount n l₁ + ncount n l₂ := by
  simp [ncount, List.countP_append]

theorem ncount_cons (n a : Nat) (l : List Nat) :
    ncount n (a :: l) = ncount n l + (if a = n then 1 else 0) := by
  simp [ncount, List.countP_cons]

theorem ecount_eq_zero (e : Ev) (l : List Ev) (h : e ∉ l) : ecount e l = 0 := by
  rw [ecount, List.countP_eq_zero]
  intro a ha
  simp only [decide_eq_true_eq]
  intro hae
  exact h (hae ▸ ha)

theorem ecount_drop_map (tid : Nat) (l : List Nat) :
    ecount (Ev.drop tid) (l.map Ev.drop) = ncount tid l := by
  induction l with
  | nil => rfl
  | cons a l ih => simp [ecount, ncount, List.countP_cons] at ih ⊢; omega

theorem countRunning_cons (w : Worker) (ws : List Worker) :
    countRunning (w :: ws) = (if w.isRunning then 1 else 0) + countRunning ws := by
  by_cases h : w.isRunning <;> simp [countRunning, List.filter_cons, h, Nat.add_comm]

theorem countRunning_append (ws₁ ws₂ : List Worker) :
    countRunning (ws₁ ++ ws₂) = countRunning ws₁ + countRunning ws₂ := by
  simp [countRunning, List.filter_append]

theorem countRunning_map_poll (ws : List Worker) (wid : Nat) (b : Bool) :
    countRunning (ws.map (fun w =>
      if w.wid = wid then { w with lastPollEmpty := b } else w)) = countRunning ws := by
  induction ws with
  | nil => rfl
  | cons w ws ih =>
    by_cases h : w.wid = wid <;>
      simp [h, countRunning_cons, ih]

theorem countRunning_map_stop (ws : List Worker) (wid : Nat) :
    countRunning (ws.map (fun w =>
      if w.wid = wid then { w with isRunning := false } else w)) ≤ countRunning ws := by
  induction ws with
  | nil => exact Nat.le_refl 0
  | cons w ws ih =>
    by_cases h : w.wid = wid
    · rw [List.map_cons, if_pos h, countRunning_cons, countRunning_cons]
      have hh : (({ w with isRunning := false } : Worker)).isRunning = false := rfl
      rw [hh]
      simp only [Bool.false_eq_true, if_false]
      omega
    · rw [List.map_cons, if_neg h, countRunning_cons, countRunning_cons]
      omega

/-! ## remSeq helpers -/

theorem remSeq_append (l₁ l₂ : List Ev) :
    remSeq (l₁ ++ l₂) = remSeq l₁ ++ remSeq l₂ := by
  simp [remSeq, List.filterMap_append]

theorem remSeq_map_ret (l : List Nat) :
    remSeq (l.map (fun b => Ev.ret b true)) = [] := by
  induction l with
  | nil => rfl
  | cons a l ih => simp [remSeq, List.filterMap_cons, remTid] at ih ⊢

theorem remSeq_map_drop (l : List Nat) : remSeq (l.map Ev.drop) = l := by
  induction l with
  | nil => rfl
  | cons a l ih => simpa [remSeq, List.filterMap_cons, remTid] using ih

theorem runSeq_sublist_remSeq (l : List Ev) : (runSeq l).Sublist (remSeq l) := by
  induction l with
  | nil => exact List.Sublist.refl []
  | cons e l ih =>
    cases e <;>
      simp only [runSeq, remSeq, List.filterMap_cons, runTid, remTid] <;>
      [exact List.Sublist.cons₂ _ ih; exact List.Sublist.cons _ ih;
       exact List.Sublist.cons _ ih; exact ih; exact ih]

/-! ## Branch characterisations of the `start` monitor section -/

theorem startStep_refuse (s : Pool) (t : Nat) (h : s.shuttingDown = true) :
    startStep s t =
      { s with submitted := s.submitted ++ [t]
               events := s.events ++ [Ev.refuse t] } := by
  rw [startStep, if_pos (Or.inl h)]

theorem startStep_idle (s : Pool) (t : Nat)
    (h1 : s.shuttingDown = false) (h2 : 0 < s.idleThreads) :
    startStep s t =
      { s with submitted := s.submitted ++ [t]
               enq := s.enq ++ [t]
               queue := s.queue ++ [t]
               events := s.events ++ [Ev.ret t true] } := by
  rw [startStep, if_neg (by simp [h1]), if_pos h2]

theorem startStep_create (s : Pool) (t : Nat)
    (h1 : s.shuttingDown = false) (h2 : ¬ 0 < s.idleThreads)
    (h3 : countRunning s.workers < s.maxThreadCount) :
    startStep s t =
      { s with submitted := s.submitted ++ [t]
               enq := s.enq ++ [t]
               queue := s.queue ++ [t]
               workers := s.workers ++ [⟨s.nextWid, true, false⟩]
               nextWid := s.nextWid + 1
               events := s.events ++ [Ev.ret t true] } := by
  rw [startStep, if_neg (by simp [h1]), if_neg h2, if_pos h3]

theorem startStep_block (s : Pool) (t : Nat)
    (h1 : s.shuttingDown = false) (h2 : ¬ 0 < s.idleThreads)
    (h3 : ¬ countRunning s.workers < s.maxThreadCount)
    (h4 : (s.queue ++ [t]).length - 1 < s.maxNbWaiting) :
    startStep s t =
      { s with submitted := s.submitted ++ [t]
               enq := s.enq ++ [t]
               queue := s.queue ++ [t]
               blocked := s.blocked ++ [t] } := by
  rw [startStep, if_neg (by simp [h1]), if_neg h2, if_neg h3, if_pos h4]

theorem startStep_overflow_nil (s : Pool) (t : Nat)
    (h1 : s.shuttingDown = false) (h2 : ¬ 0 < s.idleThreads)
    (h3 : ¬ countRunning s.workers < s.maxThreadCount)
    (h4 : ¬ (s.queue ++ [t]).length - 1 < s.maxNbWaiting)
    (hq : s.queue = []) :
    startStep s t =
      { s with submitted := s.submitted ++ [t]
               enq := s.enq ++ [t]
               queue := []
               events := s.events ++ [Ev.cancel t, Ev.ret t false] } := by
  rw [startStep]
  rw [if_neg (by simp [h1]), if_neg h2, if_neg h3, if_neg h4, hq]
  rfl

theorem startStep_overflow_cons (s : Pool) (t a : Nat) (as : List Nat)
    (h1 : s.shuttingDown = false) (h2 : ¬ 0 < s.idleThreads)
    (h3 : ¬ countRunning s.workers < s.maxThreadCount)
    (h4 : ¬ (s.queue ++ [t]).length - 1 < s.maxNbWaiting)
    (hq : s.queue = a :: as) :
    startStep s t =
      { s with submitted := s.submitted ++ [t]
               enq := s.enq ++ [t]
               queue := as ++ [t]
               events := s.events ++ [Ev.cancel a, Ev.ret t false] } := by
  rw [startStep]
  rw [if_neg (by simp [h1]), if_neg h2, if_neg h3, if_neg h4, hq]
  rfl

/-! ## Per-step bookkeeping lemmas -/

theorem startStep_submitted (s : Pool) (t : Nat) :
    (startStep s t).submitted = s.submitted ++ [t] := by
  by_cases h1 : s.shuttingDown = true
  · rw [startStep_refuse s t h1]
  have h1' : s.shuttingDown = false := by simpa using h1
  by_cases h2 : 0 < s.idleThreads
  · rw [startStep_idle s t h1' h2]
  by_cases h3 : countRunning s.workers < s.maxThreadCount
  · rw [startStep_create s t h1' h2 h3]
  by_cases h4 : (s.queue ++ [t]).length - 1 < s.maxNbWaiting
  · rw [startStep_block s t h1' h2 h3 h4]
  rcases hq : s.queue with _ | ⟨a, as⟩
  · rw [startStep_overflow_nil s t h1' h2 h3 h4 hq]
  · rw [startStep_overflow_cons s t a as h1' h2 h3 h4 hq]

theorem startStep_maxThreadCount (s : Pool) (t : Nat) :
    (startStep s t).maxThreadCount = s.maxThreadCount := by
  by_cases h1 : s.shuttingDown = true
  · rw [startStep_refuse s t h1]
  have h1' : s.shuttingDown = false := by simpa using h1
  by_cases h2 : 0 < s.idleThreads
  · rw [startStep_idle s t h1' h2]
  by_cases h3 : countRunning s.workers < s.maxThreadCount
  · rw [startStep_create s t h1' h2 h3]
  by_cases h4 : (s.queue ++ [t]).length - 1 < s.maxNbWaiting
  · rw [startStep_block s t h1' h2 h3 h4]
  rcases hq : s.queue with _ | ⟨a, as⟩
  · rw [startStep_overflow_nil s t h1' h2 h3 h4 hq]
  · rw [startStep_overflow_cons s t a as h1' h2 h3 h4 hq]

theorem startStep_workers (s : Pool) (t : Nat) :
    (startStep s t).workers = s.workers ∨
      (countRunning s.workers < s.maxThreadCount ∧
        (startStep s t).workers = s.workers ++ [⟨s.nextWid, true, false⟩]) := by
  by_cases h1 : s.shuttingDown = true
  · rw [startStep_refuse s t h1]; exact Or.inl rfl
  have h1' : s.shuttingDown = false := by simpa using h1
  by_cases h2 : 0 < s.idleThreads
  · rw [startStep_idle s t h1' h2]; exact Or.inl rfl
  by_cases h3 : countRunning s.workers < s.maxThreadCount
  · rw [startStep_create s t h1' h2 h3]; exact Or.inr ⟨h3, rfl⟩
  by_cases h4 : (s.queue ++ [t]).length - 1 < s.maxNbWaiting
  · rw [startStep_block s t h1' h2 h3 h4]; exact Or.inl rfl
  rcases hq : s.queue with _ | ⟨a, as⟩
  · rw [startStep_overflow_nil s t h1' h2 h3 h4 hq]; exact Or.inl rfl
  · rw [startStep_overflow_cons s t a as h1' h2 h3 h4 hq]; exact Or.inl rfl

theorem fate_startStep (s : Pool) (t tid : Nat) :
    fate (startStep s t) tid = fate s tid + (if tid = t then 1 else 0) := by
  by_cases h1 : s.shuttingDown = true
  · rw [startStep_refuse s t h1]
    simp only [fate, ecount_append]
    simp [ecount, ncount, List.countP_cons, eq_comm]
    split_ifs <;> omega
  have h1' : s.shuttingDown = false := by simpa using h1
  by_cases h2 : 0 < s.idleThreads
  · rw [startStep_idle s t h1' h2]
    simp only [fate, ecount_append, ncount_append]
    simp [ecount, ncount, List.countP_cons, eq_comm]
    split_ifs <;> omega
  by_cases h3 : countRunning s.workers < s.maxThreadCount
  · rw [startStep_create s t h1' h2 h3]
    simp only [fate, ecount_append, ncount_append]
    simp [ecount, ncount, List.countP_cons, eq_comm]
    split_ifs <;> omega
  by_cases h4 : (s.queue ++ [t]).length - 1 < s.maxNbWaiting
  · rw [startStep_block s t h1' h2 h3 h4]
    simp only [fate, ecount_append, ncount_append]
    simp [ecount, ncount, List.countP_cons, eq_comm]
    split_ifs <;> omega
  rcases hq : s.queue with _ | ⟨a, as⟩
  · rw [startStep_overflow_nil s t h1' h2 h3 h4 hq]
    simp only [fate, ecount_append, hq]
    simp [ecount, ncount, List.countP_cons, eq_comm]
    split_ifs <;> omega
  · rw [startStep_overflow_cons s t a as h1' h2 h3 h4 hq]
    simp only [fate, ecount_append, ncount_append, ncount_cons, hq]
    simp [ecount, ncount, List.countP_cons, eq_comm]
    split_ifs <;> omega

theorem fifo_startStep (s : Pool) (t : Nat)
    (h : remSeq s.events ++ s.queue = s.enq) :
    remSeq (startStep s t).events ++ (startStep s t).queue = (startStep s t).enq := by
  by_cases h1 : s.shuttingDown = true
  · rw [startStep_refuse s t h1]
    simp only [remSeq_append]
    have : remSeq [Ev.refuse t] = [] := rfl
    simp [this, h]
  have h1' : s.shuttingDown = false := by simpa using h1
  by_cases h2 : 0 < s.idleThreads
  · rw [startStep_idle s t h1' h2]
    simp only [remSeq_append]
    have : remSeq [Ev.ret t true] = [] := rfl
    simp [this, ← List.append_assoc, h]
  by_cases h3 : countRunning s.workers < s.maxThreadCount
  · rw [startStep_create s t h1' h2 h3]
    simp only [remSeq_append]
    have : remSeq [Ev.ret t true] = [] := rfl
    simp [this, ← List.append_assoc, h]
  by_cases h4 : (s.queue ++ [t]).length - 1 < s.maxNbWaiting
  · rw [startStep_block s t h1' h2 h3 h4]
    simp only
    rw [← List.append_assoc, h]
  rcases hq : s.queue with _ | ⟨a, as⟩
  · rw [startStep_overflow_nil s t h1' h2 h3 h4 hq]
    rw [hq] at h
    simp only [remSeq_append]
    have : remSeq [Ev.cancel t, Ev.ret t false] = [t] := rfl
    simp only [this]
    simp at h
    simp [h]
  · rw [startStep_overflow_cons s t a as h1' h2 h3 h4 hq]
    rw [hq] at h
    simp only [remSeq_append]
    have : remSeq [Ev.cancel a, Ev.ret t false] = [a] := rfl
    simp only [this]
    rw [← h]
    simp

theorem pollStep_shut (s : Pool) (wid : Nat) (h : s.shuttingDown = true) :
    pollStep s wid = s := by
  rw [pollStep, if_pos h]

theorem pollStep_dispatch (s : Pool) (wid a : Nat) (as : List Nat)
    (h : s.shuttingDown = false) (hq : s.queue = a :: as) :
    pollStep s wid =
      { s with queue := as
               workers := s.workers.map (fun w =>
                 if w.wid = wid then { w with lastPollEmpty := false } else w)
               events := s.events ++ [Ev.run a] } := by
  rw [pollStep, if_neg (by simp [h]), hq]

theorem pollStep_empty_nowake (s : Pool) (wid : Nat)
    (h : s.shuttingDown = false) (hq : s.queue = []) (hb : s.blocked = []) :
    pollStep s wid =
      { s with idleThreads := s.idleThreads + 1
               workers := s.workers.map (fun w =>
                 if w.wid = wid then { w with lastPollEmpty := true } else w) } := by
  rw [pollStep, if_neg (by simp [h]), hq, hb]

theorem pollStep_empty_wake (s : Pool) (wid b : Nat) (bs : List Nat)
    (h : s.shuttingDown = false) (hq : s.queue = []) (hb : s.blocked = b :: bs) :
    pollStep s wid =
      { s with idleThreads := s.idleThreads + 1
               workers := s.workers.map (fun w =>
                 if w.wid = wid then { w with lastPollEmpty := true } else w)
               blocked := bs
               events := s.events ++ [Ev.ret b true] } := by
  rw [pollStep, if_neg (by simp [h]), hq, hb]

theorem pollStep_const (s : Pool) (wid : Nat) :
    (pollStep s wid).submitted = s.submitted ∧
      (pollStep s wid).maxThreadCount = s.maxThreadCount ∧
      (pollStep s wid).enq = s.enq := by
  by_cases h : s.shuttingDown = true
  · rw [pollStep_shut s wid h]; exact ⟨rfl, rfl, rfl⟩
  have h' : s.shuttingDown = false := by simpa using h
  rcases hq : s.queue with _ | ⟨a, as⟩
  · rcases hb : s.blocked with _ | ⟨b, bs⟩
    · rw [pollStep_empty_nowake s wid h' hq hb]; exact ⟨rfl, rfl, rfl⟩
    · rw [pollStep_empty_wake s wid b bs h' hq hb]; exact ⟨rfl, rfl, rfl⟩
  · rw [pollStep_dispatch s wid a as h' hq]; exact ⟨rfl, rfl, rfl⟩

theorem countRunning_pollStep (s : Pool) (wid : Nat) :
    countRunning (pollStep s wid).workers = countRunning s.workers := by
  by_cases h : s.shuttingDown = true
  · rw [pollStep_shut s wid h]
  have h' : s.shuttingDown = false := by simpa using h
  rcases hq : s.queue with _ | ⟨a, as⟩
  · rcases hb : s.blocked with _ | ⟨b, bs⟩
    · rw [pollStep_empty_nowake s wid h' hq hb]
      exact countRunning_map_poll s.workers wid true
    · rw [pollStep_empty_wake s wid b bs h' hq hb]
      exact countRunning_map_poll s.workers wid true
  · rw [pollStep_dispatch s wid a as h' hq]
    exact countRunning_map_poll s.workers wid false

theorem fate_pollStep (s : Pool) (wid tid : Nat) :
    fate (pollStep s wid) tid = fate s tid := by
  by_cases h : s.shuttingDown = true
  · rw [pollStep_shut s wid h]
  have h' : s.shuttingDown = false := by simpa using h
  rcases hq : s.queue with _ | ⟨a, as⟩
  · rcases hb : s.blocked with _ | ⟨b, bs⟩
    · rw [pollStep_empty_nowake s wid h' hq hb]
      rfl
    · rw [pollStep_empty_wake s wid b bs h' hq hb]
      simp only [fate, ecount_append]
      simp [ecount, List.countP_cons]
  · rw [pollStep_dispatch s wid a as h' hq]
    simp only [fate, ecount_append, hq, ncount_cons]
    simp [ecount, ncount, List.countP_cons, eq_comm]
    split_ifs <;> omega

theorem fifo_pollStep (s : Pool) (wid : Nat)
    (h : remSeq s.events ++ s.queue = s.enq) :
    remSeq (pollStep s wid).events ++ (pollStep s wid).queue = (pollStep s wid).enq := by
  by_cases hs : s.shuttingDown = true
  · rw [pollStep_shut s wid hs]; exact h
  have h' : s.shuttingDown = false := by simpa using hs
  rcases hq : s.queue with _ | ⟨a, as⟩
  · rcases hb : s.blocked with _ | ⟨b, bs⟩
    · rw [pollStep_empty_nowake s wid h' hq hb]
      exact h
    · rw [pollStep_empty_wake s wid b bs h' hq hb]
      simp only [remSeq_append]
      have hr : remSeq [Ev.ret b true] = [] := rfl
      rw [hr, List.append_nil]
      exact h
  · rw [pollStep_dispatch s wid a as h' hq]
    rw [hq] at h
    simp only [remSeq_append]
    have hr : remSeq [Ev.run a] = [a] := rfl
    rw [hr, ← h]
    simp

theorem ecount_ret_map (e : Ev) (he : ∀ b ok, e ≠ Ev.ret b ok) (l : List Nat) :
    ecount e (l.map (fun b => Ev.ret b true)) = 0 :=
  ecount_eq_zero _ _ (fun hmem => by
    rcases List.mem_map.mp hmem with ⟨b, _, hb⟩
    exact he b true hb.symm)

theorem ecount_nondrop_map (e : Ev) (he : ∀ b, e ≠ Ev.drop b) (l : List Nat) :
    ecount e (l.map Ev.drop) = 0 :=
  ecount_eq_zero _ _ (fun hmem => by
    rcases List.mem_map.mp hmem with ⟨b, _, hb⟩
    exact he b hb.symm)

theorem fate_shutdownStep (s : Pool) (tid : Nat) :
    fate (shutdownStep s) tid = fate s tid := by
  have hr : ∀ e : Ev, (∀ b ok, e ≠ Ev.ret b ok) → ∀ l : List Nat,
      ecount e (l.map (fun b => Ev.ret b true)) = 0 := fun e he l => ecount_ret_map e he l
  have h1 := hr (Ev.run tid) (by intro b ok hh; cases hh)
  have h2 := hr (Ev.cancel tid) (by intro b ok hh; cases hh)
  have h3 := hr (Ev.drop tid) (by intro b ok hh; cases hh)
  have h4 := hr (Ev.refuse tid) (by intro b ok hh; cases hh)
  have h5 := ecount_nondrop_map (Ev.run tid) (by intro b hh; cases hh) s.queue
  have h6 := ecount_nondrop_map (Ev.cancel tid) (by intro b hh; cases hh) s.queue
  have h7 := ecount_nondrop_map (Ev.refuse tid) (by intro b hh; cases hh) s.queue
  simp only [fate, shutdownStep, ecount_append, h1, h2, h3, h4, h5, h6, h7,
    ecount_drop_map]
  have h8 : ncount tid ([] : List Nat) = 0 := rfl
  simp only [h8]
  omega

theorem fifo_shutdownStep (s : Pool)
    (h : remSeq s.events ++ s.queue = s.enq) :
    remSeq (shutdownStep s).events ++ (shutdownStep s).queue = (shutdownStep s).enq := by
  simp only [shutdownStep, remSeq_append, remSeq_map_ret, remSeq_map_drop]
  simpa using h

/-! ## The invariant -/

theorem inv_init (maxT maxW tmo : Nat) : Inv maxT (initPool maxT maxW tmo) := by
  refine ⟨rfl, Nat.zero_le _, rfl, ?_⟩
  intro tid
  simp [initPool, fate, ecount, ncount, countRunning]

theorem inv_step {maxT : Nat} {s s' : Pool} (h : Inv maxT s) (hs : Step s s') :
    Inv maxT s' := by
  obtain ⟨hmax, hcnt, hfifo, hfate⟩ := h
  cases hs with
  | submit t ht =>
    refine ⟨by rw [startStep_maxThreadCount, hmax], ?_, fifo_startStep s t hfifo, ?_⟩
    · rcases startStep_workers s t with hw | ⟨hlt, hw⟩
      · rw [hw]; exact hcnt
      · rw [hw, countRunning_append]
        have : countRunning [(⟨s.nextWid, true, false⟩ : Worker)] = 1 := rfl
        rw [this]
        omega
    · intro tid
      rw [fate_startStep, startStep_submitted]
      have hf := hfate tid
      by_cases htid : tid = t
      · subst htid
        have : tid ∉ s.submitted := ht
        simp [this] at hf
        simp [hf]
      · simp [htid, List.mem_append]
        by_cases hmem : tid ∈ s.submitted <;> simp [hmem] at hf ⊢ <;> simp [hf]
  | poll wid hw =>
    obtain ⟨hsub, hmax2, henq⟩ := pollStep_const s wid
    refine ⟨by rw [hmax2, hmax], by rw [countRunning_pollStep]; exact hcnt,
      fifo_pollStep s wid hfifo, ?_⟩
    intro tid
    rw [fate_pollStep, hsub]
    exact hfate tid
  | timeoutStop wid hw =>
    exact ⟨hmax, Nat.le_trans (countRunning_map_stop s.workers wid) hcnt, hfifo, hfate⟩
  | shutdown =>
    refine ⟨hmax, by simp [shutdownStep, countRunning], ?_, ?_⟩
    · exact fifo_shutdownStep s hfifo
    · intro tid
      rw [fate_shutdownStep]
      exact hfate tid

theorem reach_inv {maxT maxW tmo : Nat} {s : Pool}
    (h : Reach (initPool maxT maxW tmo) s) : Inv maxT s := by
  induction h with
  | refl => exact inv_init maxT maxW tmo
  | step hr hst ih => exact inv_step ih hst

/-! ## Claim C1 -/

/-- C1, counterexample.  In trace B (`ThreadPool(1, 0, _)`), `start(task 1)`
takes the queue-overflow rejection path and returns false, but the
cancellation hook invoked is task 0's — the queue head — not task 1's own,
and task 1 is subsequently executed by the worker.  This refutes the claim
that on the overflow path the cancelled task is the submitted one and that
the submitted task never runs. -/
theorem c1_counterexample :
    Reach bS0 bS3 ∧
      Ev.ret 1 false ∈ bS3.events ∧
      Ev.cancel 0 ∈ bS3.events ∧
      Ev.cancel 1 ∉ bS3.events ∧
      Ev.run 1 ∈ bS3.events := by
  refine ⟨?_, by decide, by decide, by decide, by decide⟩
  exact
    Reach.step
      (Reach.step
        (Reach.step (Reach.refl bS0) (Step.submit 0 (by decide)))
        (Step.submit 1 (by decide)))
      (Step.poll 0 (by decide))

/-- C1, amended.  When `start` takes the queue-overflow rejection path on a
pool that is not shutting down (no idle worker, worker count at the
maximum, queue already at `maxNbWaiting`), the cancellation hook invoked is
that of the task at the head of the waiting queue after the push, and that
head is popped.  The head is the submitted task itself only when the queue
was empty at submission; when the queue was non-empty, the cancelled task
is the oldest waiting task and the submitted task remains in the queue
(and may later be executed). -/
theorem c1_overflow_cancels_queue_head (s : Pool) (t : Nat)
    (h1 : s.shuttingDown = false) (h2 : s.idleThreads = 0)
    (h3 : ¬ currentNbThreads s < s.maxThreadCount)
    (h4 : s.maxNbWaiting ≤ s.queue.length) :
    (startStep s t).events =
        s.events ++ [Ev.cancel ((s.queue ++ [t]).headI), Ev.ret t false] ∧
      (startStep s t).queue = (s.queue ++ [t]).tail ∧
      (s.queue = [] → (s.queue ++ [t]).headI = t) ∧
      (∀ a as, s.queue = a :: as →
        (s.queue ++ [t]).headI = a ∧ t ∈ (startStep s t).queue) := by
  have h2' : ¬ 0 < s.idleThreads := by omega
  have h3' : ¬ countRunning s.workers < s.maxThreadCount := h3
  have h4' : ¬ (s.queue ++ [t]).length - 1 < s.maxNbWaiting := by
    simp [List.length_append]
    omega
  rcases hq : s.queue with _ | ⟨a, as⟩
  · rw [startStep_overflow_nil s t h1 h2' h3' h4' hq]
    refine ⟨by simp, by simp, fun _ => by simp, fun a as hcon => by simp [hq] at hcon⟩
  · rw [startStep_overflow_cons s t a as h1 h2' h3' h4' hq]
    refine ⟨by simp [hq], by simp [hq], fun hnil => by simp [hq] at hnil, ?_⟩
    intro a' as' ha'
    injection ha' with h5 h6
    subst h5
    subst h6
    exact ⟨by simp [hq], by simp⟩

/-- C1, witness: the amended theorem applied to trace B's state `bS1`
(queue `[0]`, one busy worker, `maxNbWaiting = 0`) and submission `1`. -/
theorem c1_witness :
    (startStep bS1 1).events =
        bS1.events ++ [Ev.cancel ((bS1.queue ++ [1]).headI), Ev.ret 1 false] ∧
      (startStep bS1 1).queue = (bS1.queue ++ [1]).tail ∧
      (bS1.queue = [] → (bS1.queue ++ [1]).headI = 1) ∧
      (∀ a as, bS1.queue = a :: as →
        (bS1.queue ++ [1]).headI = a ∧ 1 ∈ (startStep bS1 1).queue) :=
  c1_overflow_cancels_queue_head bS1 1 (by decide) (by decide) (by decide) (by decide)

/-! ## Claim C2 -/

/-- C2, counterexample.  In trace C (`ThreadPool(1, 5, _)`), task 0 is
passed to `start`, accepted and queued; `shutdown` then drains the queue.
In the final state task 0 was submitted, is no longer queued, and neither
`run` nor `cancelRun` was ever invoked on it (it was dropped by the drain),
refuting the claim that exactly one of the two is eventually invoked on
every task passed to `start`. -/
theorem c2_counterexample :
    Reach cS0 cS2 ∧
      0 ∈ cS2.submitted ∧
      Ev.run 0 ∉ cS2.events ∧
      Ev.cancel 0 ∉ cS2.events ∧
      Ev.drop 0 ∈ cS2.events ∧
      cS2.queue = [] ∧
      cS2.shuttingDown = true := by
  refine ⟨?_, by decide, by decide, by decide, by decide, by decide, by decide⟩
  exact Reach.step (Reach.step (Reach.refl cS0) (Step.submit 0 (by decide))) Step.shutdown

/-- C2, amended.  In every reachable state, every task ever passed to
`start` has fate mass exactly one: it is either still in the waiting queue,
or exactly one of {`run` invoked, `cancelRun` invoked, discarded by the
shutdown drain with no hook, refused-at-shutdown with no hook} has
happened; tasks never seen by `start` have fate mass zero.  In particular
`run` and `cancelRun` are never both invoked on the same task, but a task
caught by the shutdown drain (or submitted after shutdown began) receives
neither. -/
theorem c2_exactly_one_fate (maxT maxW tmo : Nat) (s : Pool)
    (h : Reach (initPool maxT maxW tmo) s) (tid : Nat) :
    (tid ∈ s.submitted → fate s tid = 1) ∧
      (tid ∉ s.submitted → fate s tid = 0) ∧
      ¬ (Ev.run tid ∈ s.events ∧ Ev.cancel tid ∈ s.events) := by
  have hf := (reach_inv h).2.2.2 tid
  refine ⟨fun hm => by simpa [hm] using hf, fun hm => by simpa [hm] using hf, ?_⟩
  rintro ⟨hr, hc⟩
  have h1 : 0 < ecount (Ev.run tid) s.events := by
    rw [ecount, List.countP_pos_iff]
    exact ⟨_, hr, by simp⟩
  have h2 : 0 < ecount (Ev.cancel tid) s.events := by
    rw [ecount, List.countP_pos_iff]
    exact ⟨_, hc, by simp⟩
  have hle : fate s tid ≤ 1 := by
    rw [hf]
    split_ifs <;> omega
  rw [fate] at hle
  omega

/-- C2, witness: the amended theorem applied to the final state of trace C
and task 0, whose fate there is the shutdown-drain drop. -/
theorem c2_witness : fate cS2 0 = 1 :=
  (c2_exactly_one_fate 1 5 1000 cS2
      (Reach.step (Reach.step (Reach.refl cS0) (Step.submit 0 (by decide))) Step.shutdown)
      0).1 (by decide)

/-! ## Claim C3 -/

/-- C3: the claim (and the spec invariant it cites) is violated by the
code: `idleThreads` is incremented in `taskRunner` but never decremented
anywhere, so in trace A (`ThreadPool(1, 0, 0ms)`) after the worker goes
idle once and then exits on its idle timeout, the reachable state `aS4` has
`idleThreads = 1` while `currentNbThreads()` is 0 — the idle-worker counter
exceeds the number of live workers. -/
theorem c3_idle_exceeds_live :
    Reach aS0 aS4 ∧ aS4.idleThreads = 1 ∧ currentNbThreads aS4 = 0 := by
  refine ⟨?_, by decide, by decide⟩
  exact
    Reach.step
      (Reach.step
        (Reach.step
          (Reach.step (Reach.refl aS0) (Step.submit 0 (by decide)))
          (Step.poll 0 (by decide)))
        (Step.poll 0 (by decide)))
      (Step.timeoutStop 0 (by decide))

/-! ## Claim C4 -/

/-- C4, counterexample.  In trace E (`ThreadPool(1, 2, _)`), tasks 1 and 2
are both enqueued while no worker is available (the only worker is busy,
none idle, the pool at its thread maximum), task 1 before task 2.  A third
submission overflows and cancels the queue head — task 1.  Task 2 is then
handed to the worker (`run 2`), while task 1 was never handed to any worker
and, having been cancelled and removed from the queue, never will be.  This
refutes the claim that task 1 is handed to a worker strictly before
task 2. -/
theorem c4_counterexample :
    Reach eS0 eS6 ∧
      Ev.run 2 ∈ eS6.events ∧
      Ev.run 1 ∉ eS6.events ∧
      Ev.cancel 1 ∈ eS6.events ∧
      1 ∉ eS6.queue := by
  refine ⟨?_, by decide, by decide, by decide, by decide⟩
  exact
    Reach.step
      (Reach.step
        (Reach.step
          (Reach.step
            (Reach.step
              (Reach.step (Reach.refl eS0) (Step.submit 0 (by decide)))
              (Step.poll 0 (by decide)))
            (Step.submit 1 (by decide)))
          (Step.submit 2 (by decide)))
        (Step.submit 3 (by decide)))
      (Step.poll 0 (by decide))

/-- C4, amended.  The waiting queue is strictly FIFO: every removal (a
dispatch by `taskRunner`, an overflow cancellation, or a shutdown drop)
takes the current front, so the removal sequence followed by the current
queue equals the enqueue sequence; consequently the tasks actually handed
to workers are dispatched in enqueue order — an order-preserving
subsequence of the enqueue order.  The original universal claim fails only
because a task can be removed by the overflow cancellation or the shutdown
drain instead of being dispatched (see the counterexample). -/
theorem c4_fifo_dispatch (maxT maxW tmo : Nat) (s : Pool)
    (h : Reach (initPool maxT maxW tmo) s) :
    remSeq s.events ++ s.queue = s.enq ∧ (runSeq s.events).Sublist s.enq := by
  have hf := (reach_inv h).2.2.1
  refine ⟨hf, ?_⟩
  have h1 := runSeq_sublist_remSeq s.events
  have h2 : (remSeq s.events).Sublist s.enq := by
    rw [← hf]
    exact List.sublist_append_left _ _
  exact h1.trans h2

/-- C4, witness: the amended theorem applied to the final state of
trace E. -/
theorem c4_witness :
    remSeq eS6.events ++ eS6.queue = eS6.enq ∧ (runSeq eS6.events).Sublist eS6.enq :=
  c4_fifo_dispatch 1 2 1000 eS6
    (Reach.step
      (Reach.step
        (Reach.step
          (Reach.step
            (Reach.step
              (Reach.step (Reach.refl eS0) (Step.submit 0 (by decide)))
              (Step.poll 0 (by decide)))
            (Step.submit 1 (by decide)))
          (Step.submit 2 (by decide)))
        (Step.submit 3 (by decide)))
      (Step.poll 0 (by decide)))

/-! ## Claim C5 -/

/-- C5: in every reachable state the number of live workers reported by
`currentNbThreads` is at most `maxThreadCount`; `start` appends a worker
only when the live count is strictly below the maximum, and no other
operation (`taskRunner` poll, idle-timeout exit, `shutdown`) ever adds a
worker. -/
theorem c5_capacity_invariant (maxT maxW tmo : Nat) (s : Pool)
    (h : Reach (initPool maxT maxW tmo) s) :
    currentNbThreads s ≤ maxT ∧
      (∀ t, (startStep s t).workers ≠ s.workers →
        currentNbThreads s < s.maxThreadCount) ∧
      (∀ wid, (pollStep s wid).workers.length = s.workers.length) ∧
      (∀ wid, (terminateStep s wid).workers.length = s.workers.length) ∧
      (shutdownStep s).workers = [] := by
  refine ⟨(reach_inv h).2.1, ?_, ?_, ?_, rfl⟩
  · intro t hne
    rcases startStep_workers s t with hw | ⟨hlt, _⟩
    · exact absurd hw hne
    · exact hlt
  · intro wid
    by_cases hs : s.shuttingDown = true
    · rw [pollStep_shut s wid hs]
    have h' : s.shuttingDown = false := by simpa using hs
    rcases hq : s.queue with _ | ⟨a, as⟩
    · rcases hb : s.blocked with _ | ⟨b, bs⟩
      · rw [pollStep_empty_nowake s wid h' hq hb]
        simp
      · rw [pollStep_empty_wake s wid b bs h' hq hb]
        simp
    · rw [pollStep_dispatch s wid a as h' hq]
      simp
  · intro wid
    simp [terminateStep]

/-- C5, witness: the invariant applied to the reachable state `aS1`
(one worker just created in a `ThreadPool(1, 0, 0ms)`). -/
theorem c5_witness : currentNbThreads aS1 ≤ 1 :=
  (c5_capacity_invariant 1 0 0 aS1
    (Reach.step (Reach.refl aS0) (Step.submit 0 (by decide)))).1

/-! ## Claim C6 -/

/-- C6: the claim (and the spec's queue invariant) is violated by the code.
Because `idleThreads` is never decremented, every submission after the lone
worker of trace A has exited takes the wake-an-idle-thread branch: it is
accepted (`start` returns true) and enqueued with no capacity check.  The
reachable state `aS6` is fully quiescent — no live worker, no blocked
submitter, not shutting down — yet holds 2 queued tasks against
`maxNbWaiting = 0`: the submissions were neither rejected nor kept within
the bound. -/
theorem c6_queue_overflows_bound :
    Reach aS0 aS6 ∧
      aS6.maxNbWaiting = 0 ∧
      aS6.queue.length = 2 ∧
      currentNbThreads aS6 = 0 ∧
      aS6.blocked = [] ∧
      aS6.shuttingDown = false ∧
      Ev.ret 1 true ∈ aS6.events ∧
      Ev.ret 2 true ∈ aS6.events := by
  refine ⟨?_, by decide, by decide, by decide, by decide, by decide, by decide, by decide⟩
  exact
    Reach.step
      (Reach.step
        (Reach.step
          (Reach.step
            (Reach.step
              (Reach.step (Reach.refl aS0) (Step.submit 0 (by decide)))
              (Step.poll 0 (by decide)))
            (Step.poll 0 (by decide)))
          (Step.timeoutStop 0 (by decide)))
        (Step.submit 1 (by decide)))
      (Step.submit 2 (by decide))

/-! ## Claim C7 -/

/-- C7: `ThreadPool` construction fails with `std::invalid_argument` if and
only if `maxThreadCount ≤ 0`, or `maxNbWaiting < 0`, or `idleTimeout < 0`;
for every other argument triple it succeeds and yields exactly the freshly
initialised pool state, and a failed construction yields no pool state. -/
theorem c7_ctor_validation (a b c : Int) :
    ((∃ e, mkThreadPool a b c = Except.error e) ↔ (a ≤ 0 ∨ b < 0 ∨ c < 0)) ∧
      (¬ (a ≤ 0 ∨ b < 0 ∨ c < 0) →
        mkThreadPool a b c = Except.ok (initPool a.toNat b.toNat c.toNat)) := by
  unfold mkThreadPool
  by_cases h1 : a ≤ 0
  · simp [h1]
  · by_cases h2 : b < 0
    · simp [h1, h2]
    · by_cases h3 : c < 0
      · simp [h1, h2, h3]
      · simp [h1, h2, h3]

/-- C7, witness: the validation theorem applied to the argument triples of
the repository's `testInvalidParameters` test. -/
theorem c7_witness :
    (∃ e, mkThreadPool 0 10 100 = Except.error e) ∧
      (∃ e, mkThreadPool (-1) 10 100 = Except.error e) ∧
      (∃ e, mkThreadPool 5 (-1) 100 = Except.error e) ∧
      (∃ e, mkThreadPool 5 10 (-100) = Except.error e) ∧
      mkThreadPool 5 10 100 =
        Except.ok (initPool (Int.toNat 5) (Int.toNat 10) (Int.toNat 100)) :=
  ⟨(c7_ctor_validation 0 10 100).1.mpr (Or.inl (by decide)),
   (c7_ctor_validation (-1) 10 100).1.mpr (Or.inl (by decide)),
   (c7_ctor_validation 5 (-1) 100).1.mpr (Or.inr (Or.inl (by decide))),
   (c7_ctor_validation 5 10 (-100)).1.mpr (Or.inr (Or.inr (by decide))),
   (c7_ctor_validation 5 10 100).2 (by decide)⟩

/-! ## Claim C8 -/

/-- C8, counterexample.  The only catch clause in the repository is the
documented `taskRunner`'s `catch (const std::exception& e)`, which is
typed: a task whose `run()` raises an exception not derived from
`std::exception` (for example `throw 42;`) is not caught — the exception
escapes `taskRunner` on its error channel instead of yielding a normal
return, so it propagates out of the dispatching worker, refuting the
unqualified claim for every such task.  In the bare `src/code/threadpool.h`
copy (also cited by the claim) there is no try/catch at all, so there even
a `std::exception`-derived throw escapes. -/
theorem c8_counterexample :
    escapes (dispatchRun ⟨some RunExc.otherExc⟩ []) = true ∧
      dispatchRun ⟨some RunExc.otherExc⟩ [] = Except.error RunExc.otherExc ∧
      escapes (dispatchRunBare ⟨some (RunExc.stdExc "boom")⟩ []) = true :=
  ⟨rfl, rfl, rfl⟩

/-- C8, amended.  Per the documented `taskRunner` (the copy of
`threadpool.h` shipped with `threadInfo.h`), a task whose `run()` raises a
`std::exception`-derived exception is caught inside the pool: `taskRunner`
returns normally (nothing escapes) with return value false and the error
logged, and the worker's loop state is untouched by the failure — with
time left before its idle timeout it polls again.  An exception not
derived from `std::exception` does not match the catch clause and escapes
`taskRunner`; in the bare `src/code/threadpool.h` copy, which has no
try/catch, every exception escapes. -/
theorem c8_std_exception_contained (t : TaskB) (log : List String) (w : String)
    (h : t.outcome = some (RunExc.stdExc w)) :
    dispatchRun t log =
        Except.ok (false, log ++ ["[ERROR] Task execution failed: " ++ w ++ "\n"]) ∧
      escapes (dispatchRun t log) = false ∧
      (∀ tmo now1 now2 : Nat, ∀ wi : WInfo, wi.isRunning = true →
        now1 - wi.lastWorkTime < tmo →
        (workerIter tmo wi false now1 now2).isRunning = true) ∧
      (∀ t2 : TaskB, ∀ l2 : List String, t2.outcome = some RunExc.otherExc →
        escapes (dispatchRun t2 l2) = true) ∧
      (∀ t3 : TaskB, ∀ l3 : List String, ∀ e : RunExc, t3.outcome = some e →
        escapes (dispatchRunBare t3 l3) = true) := by
  have hd : dispatchRun t log =
      Except.ok (false, log ++ ["[ERROR] Task execution failed: " ++ w ++ "\n"]) := by
    rw [dispatchRun, runBody, h]
  refine ⟨hd, by rw [hd]; rfl, ?_, ?_, ?_⟩
  · intro tmo now1 now2 wi hw hlt
    rw [workerIter, if_neg (by omega)]
    exact hw
  · intro t2 l2 h2
    rw [dispatchRun, runBody, h2]
    rfl
  · intro t3 l3 e h3
    rw [dispatchRunBare, runBody, h3]
    rfl

/-- C8, witness: the amended theorem applied to a concrete task raising a
`std::exception` with `what() == "boom"`: it is caught, logged, returns
false, nothing escapes, and a worker with elapsed time 3ms below a 10ms
timeout keeps polling. -/
theorem c8_witness :
    dispatchRun ⟨some (RunExc.stdExc "boom")⟩ [] =
        Except.ok (false, [] ++ ["[ERROR] Task execution failed: " ++ "boom" ++ "\n"]) ∧
      escapes (dispatchRun ⟨some (RunExc.stdExc "boom")⟩ []) = false ∧
      (workerIter 10 ⟨true, false, 0⟩ false 3 3).isRunning = true := by
  have h := c8_std_exception_contained ⟨some (RunExc.stdExc "boom")⟩ [] "boom" rfl
  exact ⟨h.1, h.2.1, h.2.2.1 10 3 3 ⟨true, false, 0⟩ rfl (by omega)⟩

/-! ## Claim C9 -/

/-- C9, counterexample.  First conjunct: with `idleTimeout = 5ms` and
elapsed time exactly 5ms (which does not strictly exceed the timeout) and
an empty poll, the worker loop of `ThreadInfo::workerTask` terminates —
the source tests `elapsed >= idleTimeout`, not strict excess.  Second
conjunct: after the idle-timeout exit in trace A, the worker does not
deregister: the `threadPool` registry still holds its entry, it merely
stops counting in `currentNbThreads`. -/
theorem c9_counterexample :
    ((workerIter 5 ⟨true, false, 0⟩ false 5 5).isRunning = false ∧
        ¬ ((5 : Nat) - 0 > 5)) ∧
      ((terminateStep aS3 0).workers.length = 1 ∧
        currentNbThreads (terminateStep aS3 0) = 0) := by
  exact ⟨⟨by decide, by decide⟩, ⟨by decide, by decide⟩⟩

/-- C9, amended.  A running worker's loop iteration exits exactly when the
elapsed time since its last completed task is at least (`>=`, not strictly
greater than) the configured `idleTimeout` and the current poll yielded no
work; the exit flips the running flag to false.  The worker is not removed
from the pool's `threadPool` registry by this exit — the registry keeps its
entry (same length) — but its entry's running flag is false, so it no
longer counts in `currentNbThreads`, which counts only running workers. -/
theorem c9_idle_exit_iff (tmo now1 now2 : Nat) (w : WInfo) (f : Bool)
    (h : w.isRunning = true) :
    ((workerIter tmo w f now1 now2).isRunning = false ↔
        (tmo ≤ now1 - w.lastWorkTime ∧ f = false)) ∧
      (∀ s : Pool, ∀ wid : Nat,
        (terminateStep s wid).workers.length = s.workers.length) ∧
      (∀ s : Pool, ∀ wid : Nat, ∀ w2 ∈ (terminateStep s wid).workers,
        w2.wid = wid → w2.isRunning = false) := by
  refine ⟨?_, ?_, ?_⟩
  · by_cases hc : tmo ≤ now1 - w.lastWorkTime ∧ f = false
    · rw [workerIter, if_pos hc]
      simp [hc]
    · rw [workerIter, if_neg hc]
      simp only [h]
      constructor
      · intro hfalse
        cases hfalse
      · intro hcc
        exact absurd hcc hc
  · intro s wid
    simp [terminateStep]
  · intro s wid w2 hmem heq
    simp only [terminateStep, List.mem_map] at hmem
    rcases hmem with ⟨w0, _, hw0⟩
    by_cases hwid : w0.wid = wid
    · rw [← hw0]
      simp [hwid]
    · rw [if_neg hwid] at hw0
      rw [← hw0] at heq
      exact absurd heq hwid

/-- C9, witness: applying the amended theorem at a concrete loop state
shows a worker with elapsed time 3ms below a 7ms timeout does not exit. -/
theorem c9_witness : ¬ ((workerIter 7 ⟨true, false, 0⟩ false 3 3).isRunning = false) := by
  intro hf
  have h := ((c9_idle_exit_iff 7 3 3 ⟨true, false, 0⟩ false rfl).1).mp hf
  exact absurd h.1 (by decide)

/-! ## Claim C10 -/

end TP
